import Mathlib

/-!
Verification of the layered configuration subsystem of the `gas` CLI
(`src/gas/core/config.py`, `src/gas/core/ai.py`, `src/gas/commands/config.py`).

The Python code is shallowly embedded:

* YAML scalars become the `Value` inductive; Python floats are modelled as
  exact rationals (`Rat`), which is faithful for every range comparison and
  literal exercised here.
* A parsed YAML mapping / `model_dump()` output becomes `PyVal`
  (a scalar or a string-keyed association list, mirroring an insertion-ordered
  Python `dict`).
* The filesystem state of one scope file becomes `FileState`: the file may be
  absent, present with empty content (where `yaml.safe_load` returns `None`),
  or present with a parsed top-level mapping.
* Exceptions become the `PyErr` inductive; functions that both mutate the
  filesystem and may raise return the final file state together with
  `Except PyErr _`, since in Python the file writes survive a later exception.
* `pydantic` validation (`model_validate`) is modelled per declared field,
  including the numeric lax coercions (int accepted for a float field,
  integral float accepted for an int field).  Lax coercions from strings to
  numbers/bools are outside the value space exercised by any theorem below and
  are modelled as validation failure.
* Dot-separated key paths are passed as their already-split segment lists
  (Python's `key_path.split(".")`); e.g. `"ai.temperature"` is
  `["ai", "temperature"]` and the bare section path `"ai"` is `["ai"]`.
-/

/-- A Python/YAML scalar value. Floats are modelled as exact rationals. -/
inductive Value where
  | str (s : String)
  | int (n : Int)
  | float (q : Rat)
  | bool (b : Bool)
deriving DecidableEq

/-- A Python value as traversed by the config code: a scalar or a
string-keyed mapping (insertion-ordered association list, like `dict`). -/
inductive PyVal where
  | scalar (v : Value)
  | dict (entries : List (String × PyVal))

/-- A parsed top-level YAML mapping (`Dict[str, Any]`). -/
abbrev RawDict := List (String × PyVal)

/-- Errors raised by the embedded code: `ValueError("Invalid config path")`,
`TypeError` from membership/indexing/assignment on a non-mapping, pydantic's
`ValidationError`, and `ValueError` from `int()` / `float()` argument parsing. -/
inductive PyErr where
  | invalidPath
  | typeError
  | validationError
  | valueError
deriving DecidableEq

/-- Python `dict` lookup (`d[k]` / `k in d`) on an association list: the
first binding for the key, if any. -/
def assocLookup : RawDict → String → Option PyVal
  | [], _ => none
  | (k, v) :: rest, key => if k = key then some v else assocLookup rest key

/-- Python `dict` assignment `d[k] = v`: replace the binding in place if the
key exists, otherwise append it at the end (insertion order). -/
def assocSet : RawDict → String → PyVal → RawDict
  | [], k, v => [(k, v)]
  | (k1, v1) :: rest, k, v =>
      if k1 = k then (k1, v) :: rest else (k1, v1) :: assocSet rest k v

/-- Python `d.update(other)`: assign every binding of `other` into `d`,
in order. -/
def dictUpdate (d other : RawDict) : RawDict :=
  other.foldl (fun acc kv => assocSet acc kv.1 kv.2) d

/-- Well-formedness of a parsed YAML mapping: keys are distinct, as they are
in any Python `dict` produced by `yaml.safe_load` or `model_dump`. -/
def RawDict.wf (d : RawDict) : Prop := (d.map Prod.fst).Nodup

/-- Left-biased choice on options (`a if a is not None else b`). -/
def optOr (a b : Option PyVal) : Option PyVal := match a with
  | some v => some v
  | none => b

/-- The filesystem state of one scope's configuration file. `present none`
is an existing file whose YAML content is empty (`yaml.safe_load` gives
`None`); `present (some d)` is an existing file parsing to the mapping `d`. -/
inductive FileState where
  | absent
  | present (content : Option RawDict)

/-- The raw mapping a scope file contributes: absent and empty files both
contribute the empty mapping. -/
def FileState.content : FileState → RawDict
  | .absent => []
  | .present none => []
  | .present (some d) => d

/-- A configuration scope, `CONFIG_PATHS` key: the repository-local file
`.gas.yaml` or the global user file `~/.config/gas/config.yml`. -/
inductive Scope where
  | localScope
  | globalScope
deriving DecidableEq

/-- The filesystem state of both scope files (`CONFIG_PATHS`). -/
structure ScopeFiles where
  globalFile : FileState
  localFile : FileState

/-- Look up the file state of a scope (`CONFIG_PATHS[scope]`). -/
def ScopeFiles.get : ScopeFiles → Scope → FileState
  | fs, .localScope => fs.localFile
  | fs, .globalScope => fs.globalFile

/-- Replace the file state of a scope (writing `CONFIG_PATHS[scope]`). -/
def ScopeFiles.set : ScopeFiles → Scope → FileState → ScopeFiles
  | fs, .localScope, f => { fs with localFile := f }
  | fs, .globalScope, f => { fs with globalFile := f }

/-- The `AIConfig` pydantic model (`config.py` lines 14-23). -/
structure AIConfig where
  model : String
  temperature : Rat
  max_tokens : Int
deriving DecidableEq

/-- The `UserConfig` pydantic model (`config.py` lines 26-30). -/
structure UserConfig where
  language : String
  emoji_enabled : Bool
deriving DecidableEq

/-- The `Config` pydantic model (`config.py` lines 33-37). -/
structure Config where
  ai : AIConfig
  user : UserConfig
deriving DecidableEq

/-- The `AIConfig` field defaults (`default_factory=AIConfig`); the default
temperature 0.7 is written `mkRat 7 10`. -/
def AIConfig.default : AIConfig :=
  { model := "CohereLabs/c4ai-command-a-03-2025", temperature := mkRat 7 10, max_tokens := 500 }

/-- The `UserConfig` field defaults (`default_factory=UserConfig`). -/
def UserConfig.default : UserConfig :=
  { language := "en", emoji_enabled := true }

/-- The schema-default configuration, `Config()`. -/
def Config.defaultConfig : Config :=
  { ai := AIConfig.default, user := UserConfig.default }

/-- pydantic validation of a `str` field: accepts a string (lax mode does not
coerce numbers or booleans to strings). -/
def validateStr : PyVal → Option String
  | .scalar (.str s) => some s
  | _ => none

/-- pydantic validation of `temperature: float = Field(ge=0.0, le=1.0)`:
accepts a float in range, or (lax coercion) an int in range. -/
def validateTemperature : PyVal → Option Rat
  | .scalar (.float q) => if 0 ≤ q ∧ q ≤ 1 then some q else none
  | .scalar (.int n) => if 0 ≤ (n : Rat) ∧ (n : Rat) ≤ 1 then some (n : Rat) else none
  | _ => none

/-- pydantic validation of `max_tokens: int = Field(gt=0)`: accepts a
positive int, or (lax coercion) a positive integral float. -/
def validateMaxTokens : PyVal → Option Int
  | .scalar (.int n) => if 0 < n then some n else none
  | .scalar (.float q) => if q.den = 1 ∧ 0 < q.num then some q.num else none
  | _ => none

/-- pydantic validation of a `bool` field: accepts a boolean (the lax string
and numeric coercions are never exercised by the claims and are modelled as
validation failure). -/
def validateBool : PyVal → Option Bool
  | .scalar (.bool b) => some b
  | _ => none

/-- pydantic handling of one optional field of a section mapping: an absent
key falls back to the field default, a present key is validated. -/
def fieldOr {α : Type} (dflt : α) (validate : PyVal → Option α) : Option PyVal → Option α
  | none => some dflt
  | some v => validate v

/-- pydantic validation of the `ai` entry of the merged mapping: an absent
entry yields `AIConfig()` (`default_factory`), a mapping is validated per
field, anything else is a `ValidationError` (`none`). -/
def validateAI : Option PyVal → Option AIConfig
  | none => some AIConfig.default
  | some (.scalar _) => none
  | some (.dict es) =>
      match fieldOr AIConfig.default.model validateStr (assocLookup es "model") with
      | none => none
      | some m =>
          match fieldOr AIConfig.default.temperature validateTemperature
              (assocLookup es "temperature") with
          | none => none
          | some t =>
              match fieldOr AIConfig.default.max_tokens validateMaxTokens
                  (assocLookup es "max_tokens") with
              | none => none
              | some mt => some { model := m, temperature := t, max_tokens := mt }

/-- pydantic validation of the `user` entry of the merged mapping. -/
def validateUser : Option PyVal → Option UserConfig
  | none => some UserConfig.default
  | some (.scalar _) => none
  | some (.dict es) =>
      match fieldOr UserConfig.default.language validateStr (assocLookup es "language") with
      | none => none
      | some l =>
          match fieldOr UserConfig.default.emoji_enabled validateBool
              (assocLookup es "emoji_enabled") with
          | none => none
          | some e => some { language := l, emoji_enabled := e }

/-- Config.model_validate (pydantic): validates the two declared sections;
extra top-level keys are ignored (pydantic default). `none` models a raised
`ValidationError`. -/
def Config.model_validate (d : RawDict) : Option Config :=
  match validateAI (assocLookup d "ai") with
  | none => none
  | some a =>
      match validateUser (assocLookup d "user") with
      | none => none
      | some u => some { ai := a, user := u }

/-- Config._load_file (`config.py` lines 59-65): `None` for an absent file,
otherwise `yaml.safe_load(f) or \x7b\x7d`, so empty content gives the empty
mapping. -/
def Config._load_file : FileState → Option RawDict
  | .absent => none
  | .present none => some []
  | .present (some d) => some d

/-- One merge step of Config.load: `if cfg: config_dict.update(cfg)` — a
missing file contributes nothing and an empty mapping is falsy, so only a
non-empty parsed mapping is merged (by top-level key assignment). -/
def applyScope (config_dict : RawDict) : Option RawDict → RawDict
  | none => config_dict
  | some g => if g.isEmpty then config_dict else dictUpdate config_dict g

/-- The merged `config_dict` built by Config.load (`config.py` lines 45-55):
start empty, update with the global file, then update with the local file. -/
def Config.loadDict (files : ScopeFiles) : RawDict :=
  applyScope (applyScope [] (Config._load_file files.globalFile))
    (Config._load_file files.localFile)

/-- Config.load (`config.py` lines 39-57): merge the scope files and validate
the result (`cls.model_validate(config_dict or \x7b\x7d)`; the merged dict is
already empty when nothing was merged). `none` models `ValidationError`. -/
def Config.load (files : ScopeFiles) : Option Config :=
  Config.model_validate (Config.loadDict files)

/-- Config.model_dump (pydantic): the nested dict of the current typed
configuration, as traversed by the dot-path accessors. -/
def Config.model_dump (c : Config) : PyVal :=
  .dict
    [("ai", .dict
        [("model", .scalar (.str c.ai.model)),
         ("temperature", .scalar (.float c.ai.temperature)),
         ("max_tokens", .scalar (.int c.ai.max_tokens))]),
     ("user", .dict
        [("language", .scalar (.str c.user.language)),
         ("emoji_enabled", .scalar (.bool c.user.emoji_enabled))])]

/-- Python substring containment `needle in hay` for strings. -/
def pyStrContains (hay needle : String) : Bool :=
  needle.isEmpty || (hay.splitOn needle).length > 1

/-- Python membership `key in cur`: key lookup on a dict, substring test on a
string, `TypeError` on any other scalar. -/
def pyContains (cur : PyVal) (key : String) : Except PyErr Bool :=
  match cur with
  | .dict es => .ok (assocLookup es key).isSome
  | .scalar (.str s) => .ok (pyStrContains s key)
  | .scalar _ => .error .typeError

/-- Python indexing `cur[key]` with a string key: dict lookup (`KeyError` is
modelled as `typeError`; the code only indexes after a membership check), and
`TypeError` on scalars (string indices must be integers). -/
def pyIndex (cur : PyVal) (key : String) : Except PyErr PyVal :=
  match cur with
  | .dict es =>
      match assocLookup es key with
      | some v => .ok v
      | none => .error .typeError
  | .scalar _ => .error .typeError

/-- The traversal loop shared by Config.get_value and the path-validation
phase of Config.set_value: `if part not in current: raise ValueError(...)`,
then `current = current[part]`. -/
def walkCheck (cur : PyVal) : List String → Except PyErr PyVal
  | [] => .ok cur
  | part :: rest =>
      match pyContains cur part with
      | .error e => .error e
      | .ok mem =>
          if mem then
            match pyIndex cur part with
            | .error e => .error e
            | .ok nxt => walkCheck nxt rest
          else .error .invalidPath

/-- Config.get_value (`config.py` lines 133-140): walk the parts of the
dot-path through `model_dump()`, raising `ValueError("Invalid config path")`
on a missing segment, and return whatever the walk ends at (which is the
whole section mapping when the path stops at a section). -/
def Config.get_value (self : Config) (parts : List String) : Except PyErr PyVal :=
  walkCheck (Config.model_dump self) parts

/-- Characterizes the dot-paths whose traversal of a Python value meets, at
its first deviation, a segment missing from a mapping — the paths for which
the accessors raise the InvalidPath `ValueError`.  (A path that reaches a
scalar with segments left over is not of this kind: there the membership test
hits a non-mapping.) -/
def missesMapping : PyVal → List String → Bool
  | _, [] => false
  | .dict es, part :: rest =>
      match assocLookup es part with
      | none => true
      | some v => missesMapping v rest
  | .scalar _, _ :: _ => false

/-- The update phase of Config.set_value (`config.py` lines 116-122): walk the
scope file's parsed mapping along `parts`, creating empty intermediate dicts
for missing segments, and assign the value at the final segment.  Reaching a
scalar raises a `TypeError` (either from the membership test or from item
assignment on a non-dict). -/
def setNested : RawDict → List String → String → Value → Except PyErr RawDict
  | d, [], last, v => .ok (assocSet d last (.scalar v))
  | d, part :: rest, last, v =>
      match assocLookup d part with
      | none =>
          match setNested [] rest last v with
          | .error e => .error e
          | .ok sub => .ok (assocSet d part (.dict sub))
      | some (.dict es) =>
          match setNested es rest last v with
          | .error e => .error e
          | .ok sub => .ok (assocSet d part (.dict sub))
      | some (.scalar _) => .error .typeError

/-- Config.set_value (`config.py` lines 87-131): validate the dot-path against
`model_dump()`, load the target scope's current file content, apply the
single-field update, write the file back, and only then reload via
Config.load — whose `ValidationError` therefore strikes after the write.
Returns the final filesystem state together with the normal result or the
raised error. -/
def Config.set_value (self : Config) (parts : List String) (value : Value) (scope : Scope)
    (files : ScopeFiles) : ScopeFiles × Except PyErr Config :=
  match parts.getLast? with
  | none => (files, .error .typeError)
  | some last =>
      match walkCheck (Config.model_dump self) parts.dropLast with
      | .error e => (files, .error e)
      | .ok cur =>
          match pyContains cur last with
          | .error e => (files, .error e)
          | .ok mem =>
              if mem then
                match setNested (files.get scope).content parts.dropLast last value with
                | .error e => (files, .error e)
                | .ok newDict =>
                    let files2 := files.set scope (.present (some newDict))
                    match Config.load files2 with
                    | some c2 => (files2, .ok c2)
                    | none => (files2, .error .validationError)
              else (files, .error .invalidPath)

/-- The five leaf fields of the configuration schema. -/
inductive LeafPath where
  | aiModel
  | aiTemperature
  | aiMaxTokens
  | userLanguage
  | userEmojiEnabled
deriving DecidableEq

/-- The top-level section name of a leaf field. -/
def LeafPath.sectionName : LeafPath → String
  | .aiModel => "ai"
  | .aiTemperature => "ai"
  | .aiMaxTokens => "ai"
  | .userLanguage => "user"
  | .userEmojiEnabled => "user"

/-- The field name of a leaf field inside its section. -/
def LeafPath.fieldName : LeafPath → String
  | .aiModel => "model"
  | .aiTemperature => "temperature"
  | .aiMaxTokens => "max_tokens"
  | .userLanguage => "language"
  | .userEmojiEnabled => "emoji_enabled"

/-- The split dot-path of a leaf field. -/
def LeafPath.parts (p : LeafPath) : List String := [p.sectionName, p.fieldName]

/-- The raw value a parsed scope file defines at a leaf path, if any: the
section entry must be a mapping that binds the field name. -/
def RawDict.leafValue (d : RawDict) (p : LeafPath) : Option PyVal :=
  match assocLookup d p.sectionName with
  | some (.dict es) => assocLookup es p.fieldName
  | _ => none

/-- The resolved typed value of a configuration at a leaf path. -/
def Config.leafAt (c : Config) : LeafPath → Value
  | .aiModel => .str c.ai.model
  | .aiTemperature => .float c.ai.temperature
  | .aiMaxTokens => .int c.ai.max_tokens
  | .userLanguage => .str c.user.language
  | .userEmojiEnabled => .bool c.user.emoji_enabled

/-- The schema default at a leaf path. -/
def defaultLeaf : LeafPath → Value
  | .aiModel => .str AIConfig.default.model
  | .aiTemperature => .float AIConfig.default.temperature
  | .aiMaxTokens => .int AIConfig.default.max_tokens
  | .userLanguage => .str UserConfig.default.language
  | .userEmojiEnabled => .bool UserConfig.default.emoji_enabled

/-- Field-level pydantic validation/coercion of a raw value at a leaf path. -/
def validateLeaf : LeafPath → PyVal → Option Value
  | .aiModel, v => (validateStr v).map Value.str
  | .aiTemperature, v => (validateTemperature v).map Value.float
  | .aiMaxTokens, v => (validateMaxTokens v).map Value.int
  | .userLanguage, v => (validateStr v).map Value.str
  | .userEmojiEnabled, v => (validateBool v).map Value.bool

/-- AIClient.generate, line 52 of `ai.py`:
`max_tokens = max_tokens or config.ai.max_tokens`.  Python `or` falls back on
any falsy left operand, so both `None` and `0` select the configured value. -/
def AIClient.effectiveMaxTokens (max_tokens : Option Int) (config : Config) : Int :=
  match max_tokens with
  | none => config.ai.max_tokens
  | some v => if v = 0 then config.ai.max_tokens else v

/-- AIClient.generate, line 53 of `ai.py`:
`temperature = temperature or config.ai.temperature`, with `None` and `0.0`
both falsy. -/
def AIClient.effectiveTemperature (temperature : Option Rat) (config : Config) : Rat :=
  match temperature with
  | none => config.ai.temperature
  | some v => if v = 0 then config.ai.temperature else v

/-- Python `value.lower()` (agrees with `str.lower` on the ASCII strings
exercised here). -/
def pyLower (s : String) : String := String.mk (s.data.map Char.toLower)

/-- Python `int(value)` for the CLI coercion; `none` models the raised
`ValueError` (Python's surrounding whitespace/underscore tolerance is not
exercised by any theorem below). -/
def pyInt (s : String) : Option Int := s.toInt?

/-- Python `float(value)` for the CLI coercion, restricted to plain signed
decimal forms; `none` models the raised `ValueError`.  No theorem below
depends on this branch. -/
def pyFloat (s : String) : Option Rat :=
  match s.splitOn "." with
  | [whole] => (whole.toInt?).map fun n => (n : Rat)
  | [whole, frac] =>
      match whole.toInt?, frac.toNat? with
      | some n, some f =>
          let scale : Int := (10 : Int) ^ frac.length
          let sign : Int := if s.startsWith "-" then -1 else 1
          some (((n * scale + sign * (f : Int) : Int) : Rat) / ((scale : Int) : Rat))
      | _, _ => none
  | _ => none

/-- The argument coercion of the CLI `config set` handler
(`commands/config.py` lines 35-42): convert the string argument according to
the runtime type of the currently resolved value — membership of the
lowercased string in `("true", "1", "yes", "on")` for a bool, `int()` for an
int, `float()` for a float, and no conversion otherwise (including when the
current value is a whole section mapping). -/
def coerceArg (current_value : PyVal) (value : String) : Except PyErr Value :=
  match current_value with
  | .scalar (.bool _) =>
      .ok (.bool (pyLower value == "true" || pyLower value == "1" ||
        pyLower value == "yes" || pyLower value == "on"))
  | .scalar (.int _) =>
      match pyInt value with
      | some n => .ok (.int n)
      | none => .error .valueError
  | .scalar (.float _) =>
      match pyFloat value with
      | some q => .ok (.float q)
      | none => .error .valueError
  | _ => .ok (.str value)

/-- The CLI `config set` handler (`commands/config.py` lines 27-50): read the
current value at the key, coerce the string argument by its runtime type, and
delegate to Config.set_value.  An error outcome models the handler's caught
`ValueError` (exit code 1); the filesystem state is returned alongside. -/
def ConfigCmd.set (config : Config) (files : ScopeFiles) (parts : List String) (value : String)
    (scope : Scope) : ScopeFiles × Except PyErr Config :=
  match Config.get_value config parts with
  | .error e => (files, .error e)
  | .ok current_value =>
      match coerceArg current_value value with
      | .error e => (files, .error e)
      | .ok v => Config.set_value config parts v scope files

/-! ### Association-list lemmas -/

theorem assocLookup_assocSet (d : RawDict) (k : String) (v : PyVal) (key : String) :
    assocLookup (assocSet d k v) key = if key = k then some v else assocLookup d key := by
  induction d with
  | nil =>
      simp only [assocSet, assocLookup]
      by_cases h : key = k
      · simp [h]
      · simp [h, Ne.symm h]
  | cons kv rest ih =>
      obtain ⟨k1, v1⟩ := kv
      by_cases h1 : k1 = k
      · subst h1
        simp only [assocSet, if_pos rfl]
        by_cases h2 : k1 = key
        · simp [assocLookup, h2, if_pos h2.symm]
        · simp [assocLookup, h2, Ne.symm h2]
      · simp only [assocSet, if_neg h1]
        by_cases h2 : k1 = key
        · subst h2
          simp [assocLookup, fun h3 : k1 = k => h1 h3]
        · simp [assocLookup, h2, ih]

theorem assocLookup_eq_none_of_not_mem (d : RawDict) (key : String)
    (h : key ∉ d.map Prod.fst) : assocLookup d key = none := by
  induction d with
  | nil => rfl
  | cons kv rest ih =>
      obtain ⟨k1, v1⟩ := kv
      simp only [List.map_cons, List.mem_cons] at h
      push_neg at h
      simp [assocLookup, Ne.symm h.1, ih h.2]

theorem mem_keys_assocSet (d : RawDict) (k : String) (v : PyVal) (a : String)
    (h : a ∈ (assocSet d k v).map Prod.fst) : a ∈ d.map Prod.fst ∨ a = k := by
  induction d with
  | nil =>
      right
      simpa [assocSet] using h
  | cons kv rest ih =>
      obtain ⟨k1, v1⟩ := kv
      by_cases h1 : k1 = k
      · subst h1
        left
        simpa [assocSet] using h
      · simp only [assocSet, if_neg h1, List.map_cons, List.mem_cons] at h
        rcases h with h | h
        · exact Or.inl (by simp [h])
        · rcases ih h with h2 | h2
          · exact Or.inl (by simp [h2])
          · exact Or.inr h2

theorem wf_assocSet (d : RawDict) (k : String) (v : PyVal) (hwf : RawDict.wf d) :
    RawDict.wf (assocSet d k v) := by
  induction d with
  | nil => simp [RawDict.wf, assocSet]
  | cons kv rest ih =>
      obtain ⟨k1, v1⟩ := kv
      simp only [RawDict.wf, List.map_cons, List.nodup_cons] at hwf
      by_cases h1 : k1 = k
      · subst h1
        simpa [RawDict.wf, assocSet] using hwf
      · simp only [RawDict.wf, assocSet, if_neg h1, List.map_cons, List.nodup_cons]
        refine ⟨fun hmem => ?_, ih hwf.2⟩
        rcases mem_keys_assocSet rest k v k1 hmem with h2 | h2
        · exact hwf.1 h2
        · exact h1 h2

theorem assocLookup_dictUpdate (other : RawDict) (hwf : RawDict.wf other) (d : RawDict)
    (key : String) :
    assocLookup (dictUpdate d other) key = optOr (assocLookup other key) (assocLookup d key) := by
  induction other generalizing d with
  | nil => simp [dictUpdate, optOr, assocLookup]
  | cons kv rest ih =>
      obtain ⟨k1, v1⟩ := kv
      simp only [RawDict.wf, List.map_cons, List.nodup_cons] at hwf
      have step : dictUpdate d ((k1, v1) :: rest) = dictUpdate (assocSet d k1 v1) rest := rfl
      rw [step, ih hwf.2]
      by_cases h2 : key = k1
      · subst h2
        rw [assocLookup_eq_none_of_not_mem rest key hwf.1]
        simp [optOr, assocLookup, assocLookup_assocSet]
      · simp only [assocLookup, if_neg (fun h3 : k1 = key => h2 h3.symm)]
        cases hres : assocLookup rest key with
        | some v => simp [optOr]
        | none => simp [optOr, assocLookup_assocSet, h2]

theorem optOr_none_right (a : Option PyVal) : optOr a none = a := by
  cases a <;> rfl

theorem assocLookup_applyScope (d : RawDict) (og : Option RawDict) (key : String)
    (hwf : RawDict.wf (og.getD [])) :
    assocLookup (applyScope d og) key =
      optOr (assocLookup (og.getD []) key) (assocLookup d key) := by
  cases og with
  | none => simp [applyScope, optOr, assocLookup]
  | some g =>
      cases g with
      | nil => simp [applyScope, optOr, assocLookup]
      | cons kv rest =>
          simp only [Option.getD] at hwf ⊢
          rw [applyScope, if_neg (by simp)]
          exact assocLookup_dictUpdate _ hwf _ _

theorem content_load_file (f : FileState) :
    (Config._load_file f).getD [] = f.content := by
  cases f with
  | absent => rfl
  | present o => cases o <;> rfl

theorem loadDict_lookup (files : ScopeFiles) (key : String)
    (hg : RawDict.wf files.globalFile.content) (hl : RawDict.wf files.localFile.content) :
    assocLookup (Config.loadDict files) key =
      optOr (assocLookup files.localFile.content key)
        (assocLookup files.globalFile.content key) := by
  unfold Config.loadDict
  rw [assocLookup_applyScope _ _ _ (by rw [content_load_file]; exact hl),
    assocLookup_applyScope _ _ _ (by rw [content_load_file]; exact hg)]
  rw [content_load_file, content_load_file,
    show assocLookup ([] : RawDict) key = none from rfl, optOr_none_right]

/-! ### Inversion lemmas for validation -/

theorem model_validate_some (d : RawDict) (c : Config)
    (h : Config.model_validate d = some c) :
    validateAI (assocLookup d "ai") = some c.ai ∧
      validateUser (assocLookup d "user") = some c.user := by
  unfold Config.model_validate at h
  split at h
  · exact absurd h (by simp)
  next a hA =>
    split at h
    · exact absurd h (by simp)
    next u hU =>
      cases h
      exact ⟨hA, hU⟩

theorem validateAI_dict (es : List (String × PyVal)) (a : AIConfig)
    (h : validateAI (some (.dict es)) = some a) :
    fieldOr AIConfig.default.model validateStr (assocLookup es "model") = some a.model ∧
      fieldOr AIConfig.default.temperature validateTemperature
        (assocLookup es "temperature") = some a.temperature ∧
      fieldOr AIConfig.default.max_tokens validateMaxTokens
        (assocLookup es "max_tokens") = some a.max_tokens := by
  simp only [validateAI] at h
  split at h
  · exact absurd h (by simp)
  next m hm =>
    split at h
    · exact absurd h (by simp)
    next t ht =>
      split at h
      · exact absurd h (by simp)
      next mt hmt =>
        cases h
        exact ⟨hm, ht, hmt⟩

theorem validateUser_dict (es : List (String × PyVal)) (u : UserConfig)
    (h : validateUser (some (.dict es)) = some u) :
    fieldOr UserConfig.default.language validateStr (assocLookup es "language") = some u.language ∧
      fieldOr UserConfig.default.emoji_enabled validateBool
        (assocLookup es "emoji_enabled") = some u.emoji_enabled := by
  simp only [validateUser] at h
  split at h
  · exact absurd h (by simp)
  next l hl =>
    split at h
    · exact absurd h (by simp)
    next e he =>
      cases h
      exact ⟨hl, he⟩

theorem leafValue_some_elim (d : RawDict) (p : LeafPath) (v : PyVal)
    (h : RawDict.leafValue d p = some v) :
    ∃ es, assocLookup d p.sectionName = some (.dict es) ∧ assocLookup es p.fieldName = some v := by
  unfold RawDict.leafValue at h
  split at h
  next es hs => exact ⟨es, hs, h⟩
  next hs => exact absurd h (by simp)

theorem resolved_leaf_defined (d : RawDict) (c : Config) (p : LeafPath) (v : PyVal)
    (hmv : Config.model_validate d = some c) (hv : RawDict.leafValue d p = some v) :
    validateLeaf p v = some (c.leafAt p) := by
  obtain ⟨hA, hU⟩ := model_validate_some d c hmv
  obtain ⟨es, hs, hf⟩ := leafValue_some_elim d p v hv
  cases p with
  | aiModel =>
      simp only [LeafPath.sectionName, LeafPath.fieldName] at hs hf
      rw [hs] at hA
      obtain ⟨h1, _, _⟩ := validateAI_dict es c.ai hA
      rw [hf] at h1
      simp only [fieldOr] at h1
      simp [validateLeaf, Config.leafAt, h1]
  | aiTemperature =>
      simp only [LeafPath.sectionName, LeafPath.fieldName] at hs hf
      rw [hs] at hA
      obtain ⟨_, h2, _⟩ := validateAI_dict es c.ai hA
      rw [hf] at h2
      simp only [fieldOr] at h2
      simp [validateLeaf, Config.leafAt, h2]
  | aiMaxTokens =>
      simp only [LeafPath.sectionName, LeafPath.fieldName] at hs hf
      rw [hs] at hA
      obtain ⟨_, _, h3⟩ := validateAI_dict es c.ai hA
      rw [hf] at h3
      simp only [fieldOr] at h3
      simp [validateLeaf, Config.leafAt, h3]
  | userLanguage =>
      simp only [LeafPath.sectionName, LeafPath.fieldName] at hs hf
      rw [hs] at hU
      obtain ⟨h1, _⟩ := validateUser_dict es c.user hU
      rw [hf] at h1
      simp only [fieldOr] at h1
      simp [validateLeaf, Config.leafAt, h1]
  | userEmojiEnabled =>
      simp only [LeafPath.sectionName, LeafPath.fieldName] at hs hf
      rw [hs] at hU
      obtain ⟨_, h2⟩ := validateUser_dict es c.user hU
      rw [hf] at h2
      simp only [fieldOr] at h2
      simp [validateLeaf, Config.leafAt, h2]

theorem validateAI_not_scalar (s : Value) (a : AIConfig) :
    validateAI (some (.scalar s)) ≠ some a := by
  simp [validateAI]

theorem validateUser_not_scalar (s : Value) (u : UserConfig) :
    validateUser (some (.scalar s)) ≠ some u := by
  simp [validateUser]

theorem resolved_leaf_default (d : RawDict) (c : Config) (p : LeafPath)
    (hmv : Config.model_validate d = some c) (hv : RawDict.leafValue d p = none) :
    c.leafAt p = defaultLeaf p := by
  obtain ⟨hA, hU⟩ := model_validate_some d c hmv
  cases p with
  | aiModel =>
      simp only [RawDict.leafValue, LeafPath.sectionName, LeafPath.fieldName] at hv
      cases hs : assocLookup d "ai" with
      | none =>
          rw [hs] at hA
          simp only [validateAI] at hA
          injection hA with h0
          simp [Config.leafAt, defaultLeaf, ← h0]
      | some x =>
          cases x with
          | scalar s => rw [hs] at hA; exact absurd hA (validateAI_not_scalar s c.ai)
          | dict es =>
              rw [hs] at hv
              simp only [] at hv
              rw [hs] at hA
              obtain ⟨h1, _, _⟩ := validateAI_dict es c.ai hA
              rw [hv] at h1
              simp only [fieldOr] at h1
              injection h1 with h0
              simp [Config.leafAt, defaultLeaf, ← h0]
  | aiTemperature =>
      simp only [RawDict.leafValue, LeafPath.sectionName, LeafPath.fieldName] at hv
      cases hs : assocLookup d "ai" with
      | none =>
          rw [hs] at hA
          simp only [validateAI] at hA
          injection hA with h0
          simp [Config.leafAt, defaultLeaf, ← h0]
      | some x =>
          cases x with
          | scalar s => rw [hs] at hA; exact absurd hA (validateAI_not_scalar s c.ai)
          | dict es =>
              rw [hs] at hv
              simp only [] at hv
              rw [hs] at hA
              obtain ⟨_, h2, _⟩ := validateAI_dict es c.ai hA
              rw [hv] at h2
              simp only [fieldOr] at h2
              injection h2 with h0
              simp [Config.leafAt, defaultLeaf, ← h0]
  | aiMaxTokens =>
      simp only [RawDict.leafValue, LeafPath.sectionName, LeafPath.fieldName] at hv
      cases hs : assocLookup d "ai" with
      | none =>
          rw [hs] at hA
          simp only [validateAI] at hA
          injection hA with h0
          simp [Config.leafAt, defaultLeaf, ← h0]
      | some x =>
          cases x with
          | scalar s => rw [hs] at hA; exact absurd hA (validateAI_not_scalar s c.ai)
          | dict es =>
              rw [hs] at hv
              simp only [] at hv
              rw [hs] at hA
              obtain ⟨_, _, h3⟩ := validateAI_dict es c.ai hA
              rw [hv] at h3
              simp only [fieldOr] at h3
              injection h3 with h0
              simp [Config.leafAt, defaultLeaf, ← h0]
  | userLanguage =>
      simp only [RawDict.leafValue, LeafPath.sectionName, LeafPath.fieldName] at hv
      cases hs : assocLookup d "user" with
      | none =>
          rw [hs] at hU
          simp only [validateUser] at hU
          injection hU with h0
          simp [Config.leafAt, defaultLeaf, ← h0]
      | some x =>
          cases x with
          | scalar s => rw [hs] at hU; exact absurd hU (validateUser_not_scalar s c.user)
          | dict es =>
              rw [hs] at hv
              simp only [] at hv
              rw [hs] at hU
              obtain ⟨h1, _⟩ := validateUser_dict es c.user hU
              rw [hv] at h1
              simp only [fieldOr] at h1
              injection h1 with h0
              simp [Config.leafAt, defaultLeaf, ← h0]
  | userEmojiEnabled =>
      simp only [RawDict.leafValue, LeafPath.sectionName, LeafPath.fieldName] at hv
      cases hs : assocLookup d "user" with
      | none =>
          rw [hs] at hU
          simp only [validateUser] at hU
          injection hU with h0
          simp [Config.leafAt, defaultLeaf, ← h0]
      | some x =>
          cases x with
          | scalar s => rw [hs] at hU; exact absurd hU (validateUser_not_scalar s c.user)
          | dict es =>
              rw [hs] at hv
              simp only [] at hv
              rw [hs] at hU
              obtain ⟨_, h2⟩ := validateUser_dict es c.user hU
              rw [hv] at h2
              simp only [fieldOr] at h2
              injection h2 with h0
              simp [Config.leafAt, defaultLeaf, ← h0]

theorem loadDict_leafValue_none (files : ScopeFiles) (p : LeafPath)
    (hg : RawDict.wf files.globalFile.content) (hl : RawDict.wf files.localFile.content)
    (hgn : RawDict.leafValue files.globalFile.content p = none)
    (hln : RawDict.leafValue files.localFile.content p = none) :
    RawDict.leafValue (Config.loadDict files) p = none := by
  unfold RawDict.leafValue at hgn hln ⊢
  rw [loadDict_lookup files p.sectionName hg hl]
  cases hsl : assocLookup files.localFile.content p.sectionName with
  | some x =>
      rw [hsl] at hln
      cases x with
      | scalar s => simp [optOr]
      | dict es => simpa [optOr] using hln
  | none =>
      cases hsg : assocLookup files.globalFile.content p.sectionName with
      | some x =>
          rw [hsg] at hgn
          cases x with
          | scalar s => simp [optOr]
          | dict es => simpa [optOr] using hgn
      | none => simp [optOr]

/-- C1: for every leaf path defined in both the local and the global scope
file, the resolver yields the local file's value at that path (modulo the
field's pydantic coercion), whenever the load succeeds. -/
theorem C1_local_precedence (files : ScopeFiles) (p : LeafPath) (vg vl : PyVal) (c : Config)
    (hgwf : RawDict.wf files.globalFile.content) (hlwf : RawDict.wf files.localFile.content)
    (hg : RawDict.leafValue files.globalFile.content p = some vg)
    (hl : RawDict.leafValue files.localFile.content p = some vl)
    (hload : Config.load files = some c) :
    validateLeaf p vl = some (c.leafAt p) := by
  apply resolved_leaf_defined (Config.loadDict files) c p vl hload
  obtain ⟨es, hs, hf⟩ := leafValue_some_elim _ p vl hl
  unfold RawDict.leafValue
  rw [loadDict_lookup files p.sectionName hgwf hlwf, hs]
  simpa [optOr] using hf

/-- Witness for C1 at the concrete input of the spec scenario: global
`user.language: es`, local `user.language: fr`, the resolver yields `fr`. -/
theorem C1_local_precedence_witness :
    Config.load ⟨.present (some [("user", .dict [("language", .scalar (.str "es"))])]),
                 .present (some [("user", .dict [("language", .scalar (.str "fr"))])])⟩ =
        some { ai := AIConfig.default, user := { language := "fr", emoji_enabled := true } } ∧
      validateLeaf .userLanguage (.scalar (.str "fr")) = some (.str "fr") :=
  ⟨rfl,
   C1_local_precedence
     ⟨.present (some [("user", .dict [("language", .scalar (.str "es"))])]),
      .present (some [("user", .dict [("language", .scalar (.str "fr"))])])⟩
     .userLanguage (.scalar (.str "es")) (.scalar (.str "fr"))
     { ai := AIConfig.default, user := { language := "fr", emoji_enabled := true } }
     (by simp [RawDict.wf, FileState.content]) (by simp [RawDict.wf, FileState.content]) rfl rfl rfl⟩

/-- C7: a leaf path defined in neither scope file resolves to exactly the
schema default; with both files absent the resolved configuration is the
schema-default configuration (language "en", the Cohere model, temperature
0.7, max_tokens 500, emoji enabled). -/
theorem C7_defaults :
    (∀ (files : ScopeFiles) (p : LeafPath) (c : Config),
        RawDict.wf files.globalFile.content → RawDict.wf files.localFile.content →
        RawDict.leafValue files.globalFile.content p = none →
        RawDict.leafValue files.localFile.content p = none →
        Config.load files = some c → c.leafAt p = defaultLeaf p) ∧
      Config.load ⟨.absent, .absent⟩ =
        some { ai := { model := "CohereLabs/c4ai-command-a-03-2025",
                       temperature := mkRat 7 10, max_tokens := 500 },
               user := { language := "en", emoji_enabled := true } } := by
  constructor
  · intro files p c hg hl hgn hln hload
    exact resolved_leaf_default (Config.loadDict files) c p hload
      (loadDict_leafValue_none files p hg hl hgn hln)
  · rfl

/-- Witness for the general part of C7 at a concrete input: with both files
absent, `user.language` resolves to the default. -/
theorem C7_defaults_witness :
    RawDict.leafValue (FileState.content .absent) .userLanguage = none ∧
      Config.defaultConfig.leafAt .userLanguage = defaultLeaf .userLanguage :=
  ⟨rfl,
   C7_defaults.1 ⟨.absent, .absent⟩ .userLanguage Config.defaultConfig
     (by simp [RawDict.wf, FileState.content]) (by simp [RawDict.wf, FileState.content]) rfl rfl rfl⟩

/-- C8: an existing scope file whose YAML content is empty is treated exactly
like an absent file: `_load_file` maps it to the empty mapping, the merge
skips it, the resolved configuration is identical to the absent-file case for
any state of the other scope, and with both files empty the load succeeds
with all schema defaults (no error). -/
theorem C8_empty_file_like_absent :
    Config._load_file (.present none) = some [] ∧
      (∀ other : FileState,
        Config.load ⟨other, .present none⟩ = Config.load ⟨other, .absent⟩ ∧
          Config.load ⟨.present none, other⟩ = Config.load ⟨.absent, other⟩) ∧
      Config.load ⟨.present none, .present none⟩ = some Config.defaultConfig :=
  ⟨rfl, fun _ => ⟨rfl, rfl⟩, rfl⟩

/-- C9: AIClient.generate substitutes the configured sampling parameters for
explicitly passed falsy ones: a passed `max_tokens=0` or `temperature=0.0`
behaves exactly like an omitted (`None`) argument and yields the configured
`config.ai` value, because the fallback is a truthiness `or`. -/
theorem C9_falsy_params_use_config (config : Config) :
    AIClient.effectiveMaxTokens (some 0) config = config.ai.max_tokens ∧
      AIClient.effectiveMaxTokens (some 0) config = AIClient.effectiveMaxTokens none config ∧
      AIClient.effectiveTemperature (some 0) config = config.ai.temperature ∧
      AIClient.effectiveTemperature (some 0) config = AIClient.effectiveTemperature none config := by
  refine ⟨rfl, rfl, ?_, ?_⟩ <;>
    simp [AIClient.effectiveTemperature]

/-- C2 counterexample: `ai.model` is defined only in the global file (value
"custom-model"); the local file redefines the `ai` section with only
`temperature` present.  The resolver drops the global model (the top-level
`dict.update` replaces the whole section) and yields the schema default, not
the global value. -/
theorem C2_counterexample :
    RawDict.leafValue [("ai", PyVal.dict [("model", .scalar (.str "custom-model"))])]
        .aiModel = some (.scalar (.str "custom-model")) ∧
      RawDict.leafValue [("ai", PyVal.dict [("temperature", .scalar (.float (mkRat 1 2)))])]
        .aiModel = none ∧
      Config.load ⟨.present (some [("ai", .dict [("model", .scalar (.str "custom-model"))])]),
                   .present (some [("ai", .dict [("temperature", .scalar (.float (mkRat 1 2)))])])⟩ =
        some { ai := { model := "CohereLabs/c4ai-command-a-03-2025", temperature := mkRat 1 2,
                       max_tokens := 500 },
               user := UserConfig.default } ∧
      ("CohereLabs/c4ai-command-a-03-2025" : String) ≠ "custom-model" :=
  ⟨rfl, rfl, rfl, by decide⟩

/-- C2 amended: for a leaf path defined only in the global scope file, the
resolver yields the global value (modulo pydantic coercion) provided the
local scope file does not define the path's top-level section; when the local
file redefines that section, the path falls back to the schema default
instead. -/
theorem C2_global_only_amended (files : ScopeFiles) (p : LeafPath) (v : PyVal) (c : Config)
    (hgwf : RawDict.wf files.globalFile.content) (hlwf : RawDict.wf files.localFile.content)
    (hg : RawDict.leafValue files.globalFile.content p = some v)
    (hln : RawDict.leafValue files.localFile.content p = none)
    (hlsec : assocLookup files.localFile.content p.sectionName = none)
    (hload : Config.load files = some c) :
    validateLeaf p v = some (c.leafAt p) := by
  apply resolved_leaf_defined (Config.loadDict files) c p v hload
  obtain ⟨es, hs, hf⟩ := leafValue_some_elim _ p v hg
  unfold RawDict.leafValue
  rw [loadDict_lookup files p.sectionName hgwf hlwf, hlsec, hs]
  simpa [optOr] using hf

/-- Witness for the amended C2: global sets `user.language: es`, the local
file only defines the `ai` section, and the resolver yields `es`. -/
theorem C2_global_only_amended_witness :
    Config.load ⟨.present (some [("user", .dict [("language", .scalar (.str "es"))])]),
                 .present (some [("ai", .dict [("temperature", .scalar (.float (mkRat 1 2)))])])⟩ =
        some { ai := { model := "CohereLabs/c4ai-command-a-03-2025", temperature := mkRat 1 2,
                       max_tokens := 500 },
               user := { language := "es", emoji_enabled := true } } ∧
      validateLeaf .userLanguage (.scalar (.str "es")) = some (.str "es") :=
  ⟨rfl,
   C2_global_only_amended
     ⟨.present (some [("user", .dict [("language", .scalar (.str "es"))])]),
      .present (some [("ai", .dict [("temperature", .scalar (.float (mkRat 1 2)))])])⟩
     .userLanguage (.scalar (.str "es"))
     { ai := { model := "CohereLabs/c4ai-command-a-03-2025", temperature := mkRat 1 2,
               max_tokens := 500 },
       user := { language := "es", emoji_enabled := true } }
     (by simp [RawDict.wf, FileState.content]) (by simp [RawDict.wf, FileState.content])
     rfl rfl rfl rfl⟩

/-- C4: evaluating the code at the failing input: with both scope files
absent, `set_value("ai.temperature", 2.0, "local")` raises ValidationError
only at the post-write reload, after the local file has already been
rewritten to contain the invalid value — the failed call does not leave the
scope file unchanged. -/
theorem C4_failed_set_persists :
    Config.set_value Config.defaultConfig ["ai", "temperature"] (.float 2) .localScope
        ⟨.absent, .absent⟩ =
      (⟨.absent, .present (some [("ai", .dict [("temperature", .scalar (.float 2))])])⟩,
       .error .validationError) ∧
    (FileState.present (some [("ai", PyVal.dict [("temperature", .scalar (.float 2))])])).content ≠
      (FileState.absent).content :=
  ⟨rfl, by simp [FileState.content]⟩

/-- C5: evaluating the code at the failing input: with the local file
defining the `ai` section (only `model`), `set_value("ai.temperature", 2.0,
"global")` and `set_value("ai.max_tokens", -1, "global")` both return
normally — no ValidationError is raised, because the invalid value written to
the global file is masked by the local section during the reload. -/
theorem C5_masked_invalid_set :
    Config.set_value Config.defaultConfig ["ai", "temperature"] (.float 2) .globalScope
        ⟨.absent, .present (some [("ai", .dict [("model", .scalar (.str "m"))])])⟩ =
      (⟨.present (some [("ai", .dict [("temperature", .scalar (.float 2))])]),
        .present (some [("ai", .dict [("model", .scalar (.str "m"))])])⟩,
       .ok { ai := { model := "m", temperature := mkRat 7 10, max_tokens := 500 },
             user := UserConfig.default }) ∧
    (Config.set_value Config.defaultConfig ["ai", "max_tokens"] (.int (-1)) .globalScope
        ⟨.absent, .present (some [("ai", .dict [("model", .scalar (.str "m"))])])⟩).2 =
      .ok { ai := { model := "m", temperature := mkRat 7 10, max_tokens := 500 },
            user := UserConfig.default } :=
  ⟨rfl, rfl⟩

theorem setNested_leaf (d : RawDict) (s f : String) (v : Value) (d2 : RawDict)
    (h : setNested d [s] f v = .ok d2) :
    (∃ es, assocLookup d2 s = some (.dict es) ∧ assocLookup es f = some (.scalar v)) ∧
      (RawDict.wf d → RawDict.wf d2) := by
  simp only [setNested] at h
  split at h
  next hd =>
      injection h with h
      subst h
      refine ⟨⟨assocSet [] f (.scalar v), ?_, ?_⟩, fun hwf => wf_assocSet _ _ _ hwf⟩
      · rw [assocLookup_assocSet, if_pos rfl]
      · rw [assocLookup_assocSet, if_pos rfl]
  next es hd =>
      injection h with h
      subst h
      refine ⟨⟨assocSet es f (.scalar v), ?_, ?_⟩, fun hwf => wf_assocSet _ _ _ hwf⟩
      · rw [assocLookup_assocSet, if_pos rfl]
      · rw [assocLookup_assocSet, if_pos rfl]
  next hd => exact absurd h (by simp)

theorem set_value_leaf_ok (self : Config) (p : LeafPath) (v : Value) (scope : Scope)
    (files files2 : ScopeFiles) (c2 : Config)
    (hrun : Config.set_value self p.parts v scope files = (files2, .ok c2)) :
    ∃ d2, setNested (files.get scope).content [p.sectionName] p.fieldName v = .ok d2 ∧
      files2 = files.set scope (.present (some d2)) ∧ Config.load files2 = some c2 := by
  cases p with
  | aiModel =>
      have hrun2 : (match setNested (files.get scope).content ["ai"] "model" v with
          | .error e => (files, (.error e : Except PyErr Config))
          | .ok newDict =>
              match Config.load (files.set scope (.present (some newDict))) with
              | some c => (files.set scope (.present (some newDict)), .ok c)
              | none => (files.set scope (.present (some newDict)), .error .validationError)) =
          (files2, .ok c2) := hrun
      clear hrun
      split at hrun2
      · exact absurd (congrArg Prod.snd hrun2) (by simp)
      next newDict hset =>
        split at hrun2
        next c hload =>
          rw [Prod.mk.injEq] at hrun2
          obtain ⟨hf, hc⟩ := hrun2
          injection hc with hc
          refine ⟨newDict, hset, hf.symm, ?_⟩
          rw [← hf, ← hc]
          exact hload
        next hload => exact absurd (congrArg Prod.snd hrun2) (by simp)
  | aiTemperature =>
      have hrun2 : (match setNested (files.get scope).content ["ai"] "temperature" v with
          | .error e => (files, (.error e : Except PyErr Config))
          | .ok newDict =>
              match Config.load (files.set scope (.present (some newDict))) with
              | some c => (files.set scope (.present (some newDict)), .ok c)
              | none => (files.set scope (.present (some newDict)), .error .validationError)) =
          (files2, .ok c2) := hrun
      clear hrun
      split at hrun2
      · exact absurd (congrArg Prod.snd hrun2) (by simp)
      next newDict hset =>
        split at hrun2
        next c hload =>
          rw [Prod.mk.injEq] at hrun2
          obtain ⟨hf, hc⟩ := hrun2
          injection hc with hc
          refine ⟨newDict, hset, hf.symm, ?_⟩
          rw [← hf, ← hc]
          exact hload
        next hload => exact absurd (congrArg Prod.snd hrun2) (by simp)
  | aiMaxTokens =>
      have hrun2 : (match setNested (files.get scope).content ["ai"] "max_tokens" v with
          | .error e => (files, (.error e : Except PyErr Config))
          | .ok newDict =>
              match Config.load (files.set scope (.present (some newDict))) with
              | some c => (files.set scope (.present (some newDict)), .ok c)
              | none => (files.set scope (.present (some newDict)), .error .validationError)) =
          (files2, .ok c2) := hrun
      clear hrun
      split at hrun2
      · exact absurd (congrArg Prod.snd hrun2) (by simp)
      next newDict hset =>
        split at hrun2
        next c hload =>
          rw [Prod.mk.injEq] at hrun2
          obtain ⟨hf, hc⟩ := hrun2
          injection hc with hc
          refine ⟨newDict, hset, hf.symm, ?_⟩
          rw [← hf, ← hc]
          exact hload
        next hload => exact absurd (congrArg Prod.snd hrun2) (by simp)
  | userLanguage =>
      have hrun2 : (match setNested (files.get scope).content ["user"] "language" v with
          | .error e => (files, (.error e : Except PyErr Config))
          | .ok newDict =>
              match Config.load (files.set scope (.present (some newDict))) with
              | some c => (files.set scope (.present (some newDict)), .ok c)
              | none => (files.set scope (.present (some newDict)), .error .validationError)) =
          (files2, .ok c2) := hrun
      clear hrun
      split at hrun2
      · exact absurd (congrArg Prod.snd hrun2) (by simp)
      next newDict hset =>
        split at hrun2
        next c hload =>
          rw [Prod.mk.injEq] at hrun2
          obtain ⟨hf, hc⟩ := hrun2
          injection hc with hc
          refine ⟨newDict, hset, hf.symm, ?_⟩
          rw [← hf, ← hc]
          exact hload
        next hload => exact absurd (congrArg Prod.snd hrun2) (by simp)
  | userEmojiEnabled =>
      have hrun2 : (match setNested (files.get scope).content ["user"] "emoji_enabled" v with
          | .error e => (files, (.error e : Except PyErr Config))
          | .ok newDict =>
              match Config.load (files.set scope (.present (some newDict))) with
              | some c => (files.set scope (.present (some newDict)), .ok c)
              | none => (files.set scope (.present (some newDict)), .error .validationError)) =
          (files2, .ok c2) := hrun
      clear hrun
      split at hrun2
      · exact absurd (congrArg Prod.snd hrun2) (by simp)
      next newDict hset =>
        split at hrun2
        next c hload =>
          rw [Prod.mk.injEq] at hrun2
          obtain ⟨hf, hc⟩ := hrun2
          injection hc with hc
          refine ⟨newDict, hset, hf.symm, ?_⟩
          rw [← hf, ← hc]
          exact hload
        next hload => exact absurd (congrArg Prod.snd hrun2) (by simp)

/-- C3 amended: `set_value(P, V, scope)` followed by the fresh `Config.load`
it triggers yields V at P (modulo pydantic coercion) whenever the call
returns normally — provided the scope is local, or the local scope file does
not define P's top-level section.  (A global-scope write shadowed by a local
section is dropped by the resolver, see the counterexample.) -/
theorem C3_write_read_amended (self : Config) (files : ScopeFiles) (p : LeafPath)
    (v w : Value) (scope : Scope) (files2 : ScopeFiles) (c2 : Config)
    (hgwf : RawDict.wf files.globalFile.content) (hlwf : RawDict.wf files.localFile.content)
    (hvw : validateLeaf p (.scalar v) = some w)
    (hscope : scope = .localScope ∨ assocLookup files.localFile.content p.sectionName = none)
    (hrun : Config.set_value self p.parts v scope files = (files2, .ok c2)) :
    c2.leafAt p = w := by
  obtain ⟨d2, hset, hfiles2, hload⟩ := set_value_leaf_ok self p v scope files files2 c2 hrun
  obtain ⟨⟨es, hs2, hf2⟩, hwfpres⟩ := setNested_leaf _ _ _ _ _ hset
  subst hfiles2
  cases scope with
  | localScope =>
      have hwd2 : RawDict.wf d2 := hwfpres hlwf
      have hlv : RawDict.leafValue
          (Config.loadDict (files.set .localScope (.present (some d2)))) p =
            some (.scalar v) := by
        unfold RawDict.leafValue
        rw [loadDict_lookup (files.set .localScope (.present (some d2))) p.sectionName
          (show RawDict.wf
            ((ScopeFiles.set files .localScope (.present (some d2))).globalFile.content) from hgwf)
          (show RawDict.wf
            ((ScopeFiles.set files .localScope (.present (some d2))).localFile.content) from hwd2)]
        simp only [ScopeFiles.set, FileState.content]
        rw [hs2]
        simpa [optOr] using hf2
      have hres := resolved_leaf_defined
        (Config.loadDict (files.set .localScope (.present (some d2)))) c2 p (.scalar v) hload hlv
      rw [hvw] at hres
      injection hres with h0
      exact h0.symm
  | globalScope =>
      have hsl : assocLookup files.localFile.content p.sectionName = none := by
        rcases hscope with h | h
        · exact absurd h (by simp)
        · exact h
      have hwd2 : RawDict.wf d2 := hwfpres hgwf
      have hlv : RawDict.leafValue
          (Config.loadDict (files.set .globalScope (.present (some d2)))) p =
            some (.scalar v) := by
        unfold RawDict.leafValue
        rw [loadDict_lookup (files.set .globalScope (.present (some d2))) p.sectionName
          (show RawDict.wf
            ((ScopeFiles.set files .globalScope (.present (some d2))).globalFile.content) from hwd2)
          (show RawDict.wf
            ((ScopeFiles.set files .globalScope (.present (some d2))).localFile.content) from hlwf)]
        rw [show (ScopeFiles.set files .globalScope (.present (some d2))).localFile.content =
              files.localFile.content from rfl,
          show (ScopeFiles.set files .globalScope (.present (some d2))).globalFile.content =
              d2 from rfl,
          hsl, hs2]
        simpa [optOr] using hf2
      have hres := resolved_leaf_defined
        (Config.loadDict (files.set .globalScope (.present (some d2)))) c2 p (.scalar v) hload hlv
      rw [hvw] at hres
      injection hres with h0
      exact h0.symm

/-- C3 counterexample: with the local file defining `ai.temperature: 0.3`,
`set_value("ai.temperature", 0.5, "global")` accepts the in-range value 0.5,
writes it to the global file, returns normally — and the fresh load yields
0.3 (the local value), not the value just written. -/
theorem C3_counterexample :
    validateLeaf .aiTemperature (.scalar (.float (mkRat 1 2))) = some (.float (mkRat 1 2)) ∧
      Config.set_value Config.defaultConfig ["ai", "temperature"] (.float (mkRat 1 2)) .globalScope
          ⟨.absent,
           .present (some [("ai", .dict [("temperature", .scalar (.float (mkRat 3 10)))])])⟩ =
        (⟨.present (some [("ai", .dict [("temperature", .scalar (.float (mkRat 1 2)))])]),
          .present (some [("ai", .dict [("temperature", .scalar (.float (mkRat 3 10)))])])⟩,
         .ok (⟨⟨"CohereLabs/c4ai-command-a-03-2025", mkRat 3 10, 500⟩,
              UserConfig.default⟩ : Config)) ∧
      Config.load
          ⟨.present (some [("ai", .dict [("temperature", .scalar (.float (mkRat 1 2)))])]),
           .present (some [("ai", .dict [("temperature", .scalar (.float (mkRat 3 10)))])])⟩ =
        some (⟨⟨"CohereLabs/c4ai-command-a-03-2025", mkRat 3 10, 500⟩,
              UserConfig.default⟩ : Config) ∧
      Value.float (mkRat 3 10) ≠ Value.float (mkRat 1 2) :=
  ⟨rfl, rfl, rfl, by decide⟩

/-- Witness for the amended C3 at a concrete input: from empty files, a local
write of `ai.temperature: 0.5` reads back as 0.5. -/
theorem C3_write_read_amended_witness :
    validateLeaf .aiTemperature (.scalar (.float (mkRat 1 2))) = some (.float (mkRat 1 2)) ∧
      Config.leafAt (⟨⟨"CohereLabs/c4ai-command-a-03-2025", mkRat 1 2, 500⟩,
          UserConfig.default⟩ : Config) .aiTemperature = .float (mkRat 1 2) :=
  ⟨rfl,
   C3_write_read_amended Config.defaultConfig ⟨.absent, .absent⟩ .aiTemperature
     (.float (mkRat 1 2)) (.float (mkRat 1 2)) .localScope
     ⟨.absent, .present (some [("ai", .dict [("temperature", .scalar (.float (mkRat 1 2)))])])⟩
     (⟨⟨"CohereLabs/c4ai-command-a-03-2025", mkRat 1 2, 500⟩, UserConfig.default⟩ : Config)
     (by simp [RawDict.wf, FileState.content]) (by simp [RawDict.wf, FileState.content])
     rfl (Or.inl rfl) rfl⟩

/-- C6 counterexample: the bare section path "ai" does not terminate at a
leaf field, yet `get_value("ai")` succeeds, returning the whole section
mapping instead of failing with InvalidPath. -/
theorem C6_counterexample :
    Config.get_value Config.defaultConfig ["ai"] =
      .ok (.dict [("model", .scalar (.str "CohereLabs/c4ai-command-a-03-2025")),
                  ("temperature", .scalar (.float (mkRat 7 10))),
                  ("max_tokens", .scalar (.int 500))]) := rfl

theorem walkCheck_cons_missing (es : List (String × PyVal)) (part : String)
    (rest : List String) (hl : assocLookup es part = none) :
    walkCheck (.dict es) (part :: rest) = .error .invalidPath := by
  simp [walkCheck, pyContains, hl]

theorem walkCheck_cons_found (es : List (String × PyVal)) (part : String) (v : PyVal)
    (rest : List String) (hl : assocLookup es part = some v) :
    walkCheck (.dict es) (part :: rest) = walkCheck v rest := by
  simp [walkCheck, pyContains, pyIndex, hl]

theorem walkCheck_missesMapping (cur : PyVal) (parts : List String)
    (h : missesMapping cur parts = true) :
    walkCheck cur parts = .error .invalidPath := by
  induction parts generalizing cur with
  | nil => simp [missesMapping] at h
  | cons part rest ih =>
      cases cur with
      | scalar s => simp [missesMapping] at h
      | dict es =>
          simp only [missesMapping] at h
          split at h
          next hl => exact walkCheck_cons_missing es part rest hl
          next v hl => exact (walkCheck_cons_found es part v rest hl).trans (ih v h)

theorem missesMapping_concat (cur : PyVal) (init : List String) (last : String)
    (h : missesMapping cur (init ++ [last]) = true) :
    walkCheck cur init = .error .invalidPath ∨
      ∃ es, walkCheck cur init = .ok (.dict es) ∧ assocLookup es last = none := by
  induction init generalizing cur with
  | nil =>
      cases cur with
      | scalar s => simp [missesMapping] at h
      | dict es =>
          simp only [List.nil_append, missesMapping] at h
          split at h
          next hl => exact Or.inr ⟨es, rfl, hl⟩
          next v hl => simp [missesMapping] at h
  | cons part rest ih =>
      cases cur with
      | scalar s => simp [missesMapping] at h
      | dict es =>
          simp only [List.cons_append, missesMapping] at h
          split at h
          next hl => exact Or.inl (walkCheck_cons_missing es part rest hl)
          next v hl =>
              rcases ih v h with h2 | ⟨es2, h2, h3⟩
              · exact Or.inl ((walkCheck_cons_found es part v rest hl).trans h2)
              · exact Or.inr ⟨es2, (walkCheck_cons_found es part v rest hl).trans h2, h3⟩

theorem set_value_missesMapping (c : Config) (parts : List String) (value : Value)
    (scope : Scope) (files : ScopeFiles)
    (h : missesMapping (Config.model_dump c) parts = true) :
    Config.set_value c parts value scope files = (files, .error .invalidPath) := by
  rcases List.eq_nil_or_concat parts with hnil | ⟨init, last, hconcat⟩
  · subst hnil
    simp [missesMapping] at h
  · rw [List.concat_eq_append] at hconcat
    subst hconcat
    rcases missesMapping_concat (Config.model_dump c) init last h with h2 | ⟨es, h2, h3⟩
    · unfold Config.set_value
      simp only [List.getLast?_concat, List.dropLast_concat, h2]
    · unfold Config.set_value
      simp only [List.getLast?_concat, List.dropLast_concat, h2, pyContains, h3]
      simp

/-- C6 amended: `get_value` and `set_value` fail with the InvalidPath
`ValueError` for every dot-path whose traversal meets a missing segment in a
mapping — whether a first segment outside the declared sections, like
"invalid.path", or a nested miss like "ai.bogus" — and the failing
`set_value` call leaves the scope files unchanged.  A bare section path, by
contrast, passes the path check: `get_value("ai")` returns the section
mapping (see the counterexample), and `set_value("ai", v)` always writes the
scope file, failing (if at all) only with the post-write reload's
ValidationError.  A path extending past a non-string leaf (here
`ai.temperature`) raises TypeError rather than InvalidPath, in both
accessors. -/
theorem C6_invalid_path_amended :
    (∀ (c : Config) (parts : List String) (value : Value) (scope : Scope) (files : ScopeFiles),
        missesMapping (Config.model_dump c) parts = true →
        Config.get_value c parts = .error .invalidPath ∧
          Config.set_value c parts value scope files = (files, .error .invalidPath)) ∧
      (∀ (c : Config) (value : Value) (scope : Scope) (files : ScopeFiles),
        (Config.set_value c ["ai"] value scope files).1 =
            files.set scope
              (.present (some (assocSet (files.get scope).content "ai" (.scalar value)))) ∧
          ∀ e, (Config.set_value c ["ai"] value scope files).2 = .error e →
            e = .validationError) ∧
      (∀ (c : Config) (part : String) (more : List String),
        Config.get_value c ("ai" :: "temperature" :: part :: more) = .error .typeError) ∧
      (∀ (c : Config) (value : Value) (scope : Scope) (files : ScopeFiles) (part : String),
        Config.set_value c ["ai", "temperature", part] value scope files =
          (files, .error .typeError)) := by
  refine ⟨?_, ?_, ?_, ?_⟩
  · intro c parts value scope files h
    exact ⟨walkCheck_missesMapping (Config.model_dump c) parts h,
      set_value_missesMapping c parts value scope files h⟩
  · intro c value scope files
    have hdef : Config.set_value c ["ai"] value scope files =
        (match Config.load (files.set scope
            (.present (some (assocSet (files.get scope).content "ai" (.scalar value))))) with
         | some c2 =>
             (files.set scope
               (.present (some (assocSet (files.get scope).content "ai" (.scalar value)))),
              .ok c2)
         | none =>
             (files.set scope
               (.present (some (assocSet (files.get scope).content "ai" (.scalar value)))),
              .error .validationError)) := rfl
    rw [hdef]
    cases hl : Config.load (files.set scope
        (.present (some (assocSet (files.get scope).content "ai" (.scalar value))))) with
    | some c2 =>
        refine ⟨rfl, fun e he => ?_⟩
        exact absurd he (by simp)
    | none =>
        refine ⟨rfl, fun e he => ?_⟩
        injection he with he
        exact he.symm
  · intro c part more
    rfl
  · intro c value scope files part
    rfl

/-- Witness for the amended C6: both a first-segment miss ("invalid.path")
and a nested miss ("ai.bogus") fail with InvalidPath in both accessors, with
no file changes. -/
theorem C6_invalid_path_amended_witness :
    missesMapping (Config.model_dump Config.defaultConfig) ["invalid", "path"] = true ∧
      Config.get_value Config.defaultConfig ["invalid", "path"] = .error .invalidPath ∧
      Config.set_value Config.defaultConfig ["invalid", "path"] (.str "x") .localScope
          ⟨.absent, .absent⟩ = (⟨.absent, .absent⟩, .error .invalidPath) ∧
      missesMapping (Config.model_dump Config.defaultConfig) ["ai", "bogus"] = true ∧
      Config.get_value Config.defaultConfig ["ai", "bogus"] = .error .invalidPath ∧
      Config.set_value Config.defaultConfig ["ai", "bogus"] (.str "x") .localScope
          ⟨.absent, .absent⟩ = (⟨.absent, .absent⟩, .error .invalidPath) :=
  ⟨rfl,
   (C6_invalid_path_amended.1 Config.defaultConfig ["invalid", "path"] (.str "x") .localScope
      ⟨.absent, .absent⟩ rfl).1,
   (C6_invalid_path_amended.1 Config.defaultConfig ["invalid", "path"] (.str "x") .localScope
      ⟨.absent, .absent⟩ rfl).2,
   rfl,
   (C6_invalid_path_amended.1 Config.defaultConfig ["ai", "bogus"] (.str "x") .localScope
      ⟨.absent, .absent⟩ rfl).1,
   (C6_invalid_path_amended.1 Config.defaultConfig ["ai", "bogus"] (.str "x") .localScope
      ⟨.absent, .absent⟩ rfl).2⟩

/-- C10: the CLI `config set` handler coerces the string argument by the
runtime type of the current resolved value; for a boolean field every string
whose lowercase form is outside ("true", "1", "yes", "on") coerces to False,
so `config set user.emoji_enabled banana` succeeds and stores False. -/
theorem C10_bool_coercion :
    (∀ (s : String) (b : Bool),
        pyLower s ≠ "true" → pyLower s ≠ "1" → pyLower s ≠ "yes" → pyLower s ≠ "on" →
        coerceArg (.scalar (.bool b)) s = .ok (.bool false)) ∧
      ConfigCmd.set Config.defaultConfig ⟨.absent, .absent⟩ ["user", "emoji_enabled"] "banana"
          .localScope =
        (⟨.absent, .present (some [("user", .dict [("emoji_enabled", .scalar (.bool false))])])⟩,
         .ok (⟨AIConfig.default, ⟨"en", false⟩⟩ : Config)) := by
  constructor
  · intro s b h1 h2 h3 h4
    simp [coerceArg, h1, h2, h3, h4]
  · rfl

/-- Witness for C10 at the concrete input "banana". -/
theorem C10_bool_coercion_witness :
    pyLower "banana" ≠ "true" ∧ coerceArg (.scalar (.bool true)) "banana" = .ok (.bool false) :=
  ⟨by decide, C10_bool_coercion.1 "banana" true (by decide) (by decide) (by decide) (by decide)⟩

/-- Witness for C8 at a concrete instantiation: an empty local file resolves
exactly like an absent one. -/
theorem C8_empty_file_like_absent_witness :
    Config.load ⟨.absent, .present none⟩ = Config.load ⟨.absent, .absent⟩ :=
  (C8_empty_file_like_absent.2.1 .absent).1

/-- Witness for C9 at the schema-default configuration. -/
theorem C9_falsy_params_use_config_witness :
    AIClient.effectiveMaxTokens (some 0) Config.defaultConfig =
      Config.defaultConfig.ai.max_tokens :=
  (C9_falsy_params_use_config Config.defaultConfig).1
